import Mathlib

/-!
Verification of `create-project-repos` (src/main.rs): a one-shot batch tool
that provisions one GitLab project per roster entry, imports a template,
protects the default branch and adds resolved members.

The embedding is shallow: the GitLab REST API is modelled as an oracle of
response functions, and the side-effecting calls the orchestrator issues are
recorded as an explicit event trace.  A panicking `unwrap()` on a platform
response is modelled as `Except.error` (an aborted run).
-/

namespace CreateProjectRepos

/-- The constant `DEFAULT_BRANCH_NAME` from main.rs (line 18). -/
def DEFAULT_BRANCH_NAME : String := "main"

/-- The configuration record `GitLabConfig` from main.rs (lines 40-45). -/
structure GitLabConfig where
  designation : String
  group_name : String
  template_repo : String
  token : String

/-- Rust `char::is_whitespace` (the Unicode White_Space property), used by
`str::trim` and by `read_token_file`'s `retain` call. -/
def isRustWhitespace (c : Char) : Bool :=
  c == '\t' || c == '\n' || c == '\u000B' || c == '\u000C' || c == '\r' || c == ' ' ||
  c == '\u0085' || c == '\u00A0' || c == '\u1680' ||
  (0x2000 ≤ c.toNat && c.toNat ≤ 0x200A) ||
  c == '\u2028' || c == '\u2029' || c == '\u202F' || c == '\u205F' || c == '\u3000'

/-- Rust `str::trim` on a character list: surrounding whitespace removed. -/
def trimChars (l : List Char) : List Char :=
  ((l.dropWhile isRustWhitespace).reverse.dropWhile isRustWhitespace).reverse

/-- Rust `str::split(',')`: the fields between commas, in order; the empty
string yields one empty field, and n separators yield n+1 fields. -/
def splitComma : List Char → List (List Char)
  | [] => [[]]
  | c :: rest =>
    if c = ',' then [] :: splitComma rest
    else
      match splitComma rest with
      | [] => [[c]]
      | f :: fs => (c :: f) :: fs

/-- The inner loop of `parse_csv_file` (main.rs lines 248-253): for each field
of the row, push `field.trim()` onto the entry unless the field is empty
(the emptiness test is on the field as split, before trimming). -/
def parse_line (line : String) : List String :=
  (splitComma line.data).foldl
    (fun inner user => if user.isEmpty then inner else inner ++ [String.mk (trimChars user)])
    []

/-- `parse_csv_file` (main.rs lines 242-257) over the list of input lines:
each line becomes one entry, in order. -/
def parse_csv_file (lines : List String) : List (List String) :=
  lines.foldl (fun result line => result ++ [parse_line line]) []

/-- The row transformation as the claim words it: split on the delimiter,
trim every field, then drop the fields that are empty (after trimming). -/
def parse_line_claimed (line : String) : List String :=
  (((splitComma line.data).map (fun f => String.mk (trimChars f))).filter
    (fun f => !f.isEmpty))

/-- The row transformation the code actually performs, stated declaratively:
split on the delimiter, drop the fields that are empty before any trimming,
and trim the remaining fields. -/
def parse_line_amended (line : String) : List String :=
  (((splitComma line.data).filter (fun f => !f.isEmpty)).map
    (fun f => String.mk (trimChars f)))

/-- `read_token_file` (main.rs lines 264-269) on the file content:
`retain(|c| !c.is_whitespace())` keeps exactly the non-whitespace characters,
wherever they occur. -/
def read_token_file (content : String) : String :=
  String.mk (content.data.filter (fun c => !isRustWhitespace c))

/-- The transformation the claim words describe: only surrounding (leading and
trailing) whitespace stripped from the content. -/
def trimSurrounding (content : String) : String :=
  String.mk (trimChars content.data)

/-- The side-effecting GitLab API calls the orchestrator issues for a roster
entry, recorded as trace events: project creation (main.rs line 156), the
settling sleep (line 116), branch unprotect (line 209), branch protect
(line 222) and member addition (line 183).  User-directory lookups are
modelled through the oracle directly and are not traced. -/
inductive Event where
  | createProject (name : String)
  | delay
  | unprotect (projectId : Nat) (branch : String)
  | protect (projectId : Nat) (branch : String)
  | addMember (projectId : Nat) (userId : Nat)
deriving DecidableEq, Repr

/-- The platform, as an oracle of responses: the user-directory query for a
username (an error response, or the list of matching user ids), the
create-project request for a name (an error response, or the new project id),
and whether an add-member request succeeds (its result is discarded by the
code either way). -/
structure Oracle where
  lookupResp : String → Except Unit (List Nat)
  createResp : String → Except Unit Nat
  addResp : Nat → Nat → Bool

/-- `retrieve_user_id` (main.rs lines 189-197) on the platform's response to
the user-directory query.  The code calls `.unwrap()` on the query result, so
an error response panics and aborts the run, modelled as `Except.error`; a
successful response yields the first matching user's id, or `none` when the
result list is empty. -/
def retrieve_user_id (resp : Except Unit (List Nat)) : Except Unit (Option Nat) :=
  match resp with
  | .error e => .error e
  | .ok gl_user => .ok (if gl_user.isEmpty then none else some (gl_user.headD 0))

/-- `convert_to_user_ids` (main.rs lines 126-137): look up each student in
order, pushing the resolved id when one is returned and skipping the student
otherwise; an aborted lookup aborts the whole run. -/
def convert_to_user_ids (o : Oracle) (group_or_student : List String) :
    Except Unit (List Nat) :=
  group_or_student.foldl
    (fun acc student =>
      match acc with
      | .error e => .error e
      | .ok id_vector =>
        match retrieve_user_id (o.lookupResp student) with
        | .error e => .error e
        | .ok none => .ok id_vector
        | .ok (some id) => .ok (id_vector ++ [id]))
    (.ok [])

/-- `create_project` (main.rs lines 139-164) on the platform's response to the
creation request: the new project's id on success, the sentinel 0 on an error
response. -/
def create_project (resp : Except Unit Nat) : Nat :=
  match resp with
  | .ok project => project
  | .error _ => 0

/-- `configure_branch_protection` (main.rs lines 199-224): first an unprotect
request on the default branch, then a protect request on it; both results are
swallowed with `unwrap_or(())`. -/
def configure_branch_protection (project_id : Nat) : List Event :=
  [Event.unprotect project_id DEFAULT_BRANCH_NAME,
   Event.protect project_id DEFAULT_BRANCH_NAME]

/-- `add_users_to_project` (main.rs lines 166-187): one add-member request per
resolved id; the request's result is discarded with `unwrap_or(())` and
`added_students` is incremented unconditionally.  Returns the issued events
and the reported count. -/
def add_users_to_project (o : Oracle) (gitlab_user_ids : List Nat)
    (project_id : Nat) : List Event × Nat :=
  gitlab_user_ids.foldl
    (fun acc student_gitlab_id =>
      let _ := o.addResp project_id student_gitlab_id
      (acc.1 ++ [Event.addMember project_id student_gitlab_id], acc.2 + 1))
    ([], 0)

/-- The count the spec's words describe: the number of add-member requests
that the platform accepted. -/
def successful_add_count (o : Oracle) (gitlab_user_ids : List Nat)
    (project_id : Nat) : Nat :=
  (gitlab_user_ids.filter (fun uid => o.addResp project_id uid)).length

/-- The project-name derivation of `create_repos` (main.rs lines 84-93) for
the entry at 0-based roster position `i`: the single-identity form when the
entry has exactly one field, the group form `…-g(i+1)` otherwise. -/
def project_name (config : GitLabConfig) (i : Nat) (group_or_student : List String) :
    String :=
  if group_or_student.length == 1 then
    config.group_name ++ "-" ++ config.designation ++ "-" ++ group_or_student.headD ""
  else
    config.group_name ++ "-" ++ config.designation ++ "-g" ++ toString (i + 1)

/-- The message printed when an entry is skipped for having no resolvable
users (main.rs line 97). -/
def skip_message (config : GitLabConfig) (i : Nat) (group_or_student : List String) :
    String :=
  "Unable to create project " ++ project_name config i group_or_student ++
    "; no gitlab users found"

/-- One iteration of the `create_repos` loop (main.rs lines 81-123) for the
entry at 0-based position `i`: resolve ids (aborting the run if a lookup
panics), skip with no API calls when none resolve, issue the creation request
and stop there when the platform rejects it, and otherwise sleep, configure
branch protection and add the members. -/
def process_entry (o : Oracle) (config : GitLabConfig) (i : Nat)
    (group_or_student : List String) : Except Unit (List Event) :=
  let name := project_name config i group_or_student
  match convert_to_user_ids o group_or_student with
  | .error e => .error e
  | .ok gitlab_user_ids =>
    if gitlab_user_ids.isEmpty then
      .ok []
    else
      let project_id := create_project (o.createResp name)
      if project_id = 0 then
        .ok [Event.createProject name]
      else
        .ok (Event.createProject name :: Event.delay ::
          (configure_branch_protection project_id ++
            (add_users_to_project o gitlab_user_ids project_id).1))

/-- The `for i in 0..repo_members.len()` loop of `create_repos`, carrying the
0-based position of the next entry; yields the per-entry traces in roster
order, or the aborted run. -/
def create_repos_go (o : Oracle) (config : GitLabConfig) :
    Nat → List (List String) → Except Unit (List (List Event))
  | _, [] => .ok []
  | i, entry :: rest =>
    match process_entry o config i entry with
    | .error e => .error e
    | .ok tr =>
      match create_repos_go o config (i + 1) rest with
      | .error e => .error e
      | .ok trs => .ok (tr :: trs)

/-- `create_repos` (main.rs lines 74-124) restricted to its per-entry loop;
the once-per-run current-user and group lookups (fatal on failure) and the
import-URL construction are outside the trace model. -/
def create_repos (o : Oracle) (config : GitLabConfig)
    (repo_members : List (List String)) : Except Unit (List (List Event)) :=
  create_repos_go o config 0 repo_members

end CreateProjectRepos

namespace CreateProjectRepos

example : parse_line "a, b ,c" = ["a", "b", "c"] := by decide
example : parse_line "" = [] := by decide
example : parse_line " " = [""] := by decide
example : parse_line_claimed " " = [] := by decide
example : read_token_file "  ab cd \n" = "abcd" := by decide
example : trimSurrounding "  ab cd \n" = "ab cd" := by decide

/-- A configuration used for concrete evaluations, matching the usage example
in main.rs (lines 54-57). -/
def cfgEx : GitLabConfig :=
  { designation := "a1", group_name := "ece459-1231",
    template_repo := "ece459/ece459-a1", token := "tok" }

/-- An oracle on which every call succeeds: every username resolves to user 5,
creation yields project 42, member adds are accepted. -/
def oracleOk : Oracle :=
  { lookupResp := fun _ => .ok [5], createResp := fun _ => .ok 42,
    addResp := fun _ _ => true }

/-- An oracle on which no username matches any user. -/
def oracleNoUsers : Oracle :=
  { lookupResp := fun _ => .ok [], createResp := fun _ => .ok 42,
    addResp := fun _ _ => true }

/-- An oracle on which the platform rejects every creation request. -/
def oracleCreateFail : Oracle :=
  { lookupResp := fun _ => .ok [5], createResp := fun _ => .error (),
    addResp := fun _ _ => true }

/-- An oracle on which every add-member request fails (and lookups resolve). -/
def oracleAddFail : Oracle :=
  { lookupResp := fun _ => .ok [5], createResp := fun _ => .ok 42,
    addResp := fun _ _ => false }

/-- An oracle on which only the username `alice` matches (users 3 then 9). -/
def oracleMixed : Oracle :=
  { lookupResp := fun s => if s = "alice" then .ok [3, 9] else .ok [],
    createResp := fun _ => .ok 42, addResp := fun _ _ => true }

/-- An oracle whose user-directory query returns an error response. -/
def oracleLookupError : Oracle :=
  { lookupResp := fun _ => .error (), createResp := fun _ => .ok 42,
    addResp := fun _ _ => true }

/-- The trace `process_entry oracleOk cfgEx 1 ["bob", "carol"]` produces. -/
def trEx : List Event :=
  [Event.createProject "ece459-1231-a1-g2", Event.delay, Event.unprotect 42 "main",
   Event.protect 42 "main", Event.addMember 42 5, Event.addMember 42 5]

/-- The traces `create_repos oracleOk cfgEx [["alice"], ["bob", "carol"]]` produces. -/
def trsEx : List (List Event) :=
  [[Event.createProject "ece459-1231-a1-alice", Event.delay, Event.unprotect 42 "main",
    Event.protect 42 "main", Event.addMember 42 5],
   trEx]

example : project_name cfgEx 0 ["alice"] = "ece459-1231-a1-alice" := by decide
example : project_name cfgEx 1 ["bob", "carol"] = "ece459-1231-a1-g2" := by decide
example : project_name cfgEx 2 [] = "ece459-1231-a1-g3" := by decide

example :
    process_entry oracleOk cfgEx 1 ["bob", "carol"] =
      .ok [Event.createProject "ece459-1231-a1-g2", Event.delay,
        Event.unprotect 42 "main", Event.protect 42 "main",
        Event.addMember 42 5, Event.addMember 42 5] := rfl

example : process_entry oracleNoUsers cfgEx 0 ["ghost"] = .ok [] := rfl

example :
    process_entry oracleCreateFail cfgEx 0 ["bob"] =
      .ok [Event.createProject "ece459-1231-a1-bob"] := rfl

example : convert_to_user_ids oracleMixed ["alice", "ghost"] = .ok [3] := rfl

example :
    create_repos oracleOk cfgEx [["alice"], [], ["bob", "carol"]] =
      .ok [[Event.createProject "ece459-1231-a1-alice", Event.delay,
            Event.unprotect 42 "main", Event.protect 42 "main",
            Event.addMember 42 5],
           [],
           [Event.createProject "ece459-1231-a1-g3", Event.delay,
            Event.unprotect 42 "main", Event.protect 42 "main",
            Event.addMember 42 5, Event.addMember 42 5]] := rfl

/-! ### Helper lemmas -/

theorem dropWhile_append_of_all {α : Type} (p : α → Bool) (l₁ l₂ : List α)
    (h : ∀ c ∈ l₁, p c = true) :
    (l₁ ++ l₂).dropWhile p = l₂.dropWhile p := by
  induction l₁ with
  | nil => rfl
  | cons a l ih =>
    have ha : p a = true := h a (by simp)
    simp only [List.cons_append, List.dropWhile_cons, ha, if_true]
    exact ih (fun c hc => h c (by simp [hc]))

theorem dropWhile_eq_nil_of_all {α : Type} (p : α → Bool) (l : List α)
    (h : ∀ c ∈ l, p c = true) : l.dropWhile p = [] := by
  have := dropWhile_append_of_all p l [] h
  simpa using this

theorem dropWhile_eq_self_of_none {α : Type} (p : α → Bool) (l : List α)
    (h : ∀ c ∈ l, p c = false) : l.dropWhile p = l := by
  cases l with
  | nil => rfl
  | cons a l => simp [List.dropWhile_cons, h a (by simp)]

theorem trimChars_sandwich (pre core post : List Char)
    (hpre : ∀ c ∈ pre, isRustWhitespace c = true)
    (hpost : ∀ c ∈ post, isRustWhitespace c = true)
    (hcore : ∀ c ∈ core, isRustWhitespace c = false) :
    trimChars (pre ++ core ++ post) = core := by
  unfold trimChars
  rw [List.append_assoc, dropWhile_append_of_all _ pre _ hpre]
  cases core with
  | nil =>
    simp only [List.nil_append]
    rw [dropWhile_eq_nil_of_all _ post hpost]
    rfl
  | cons c core' =>
    have hc : isRustWhitespace c = false := hcore c (by simp)
    simp only [List.cons_append, List.dropWhile_cons, hc, if_false, Bool.false_eq_true]
    rw [List.reverse_cons, List.reverse_append]
    rw [List.append_assoc, dropWhile_append_of_all _ post.reverse _
      (fun x hx => hpost x (List.mem_reverse.mp hx))]
    rw [dropWhile_eq_self_of_none _ _ (by
      intro x hx
      rcases List.mem_append.mp hx with hx' | hx'
      · exact hcore x (by simp [List.mem_reverse.mp hx'])
      · simp only [List.mem_singleton] at hx'
        subst hx'
        exact hc)]
    simp

theorem parse_fields_go (fs : List (List Char)) (acc : List String) :
    fs.foldl
      (fun inner user => if user.isEmpty then inner else inner ++ [String.mk (trimChars user)])
      acc
    = acc ++ (fs.filter (fun f => !f.isEmpty)).map (fun f => String.mk (trimChars f)) := by
  induction fs generalizing acc with
  | nil => simp
  | cons f fs ih =>
    cases hf : f.isEmpty with
    | true =>
      have hf' : f = [] := by simpa using hf
      subst hf'
      exact ih acc
    | false =>
      simp only [List.foldl_cons, List.filter_cons]
      rw [hf, ih]
      simp

theorem parse_lines_go (lines : List String) (acc : List (List String)) :
    lines.foldl (fun result line => result ++ [parse_line line]) acc
    = acc ++ lines.map parse_line := by
  induction lines generalizing acc with
  | nil => simp
  | cons l lines ih => simp [List.foldl_cons, ih]

theorem parse_line_eq_amended (line : String) : parse_line line = parse_line_amended line := by
  unfold parse_line parse_line_amended
  rw [parse_fields_go]
  simp

theorem add_users_go (o : Oracle) (pid : Nat) (ids : List Nat) (es : List Event) (n : Nat) :
    ids.foldl
      (fun acc student_gitlab_id =>
        let _ := o.addResp pid student_gitlab_id
        (acc.1 ++ [Event.addMember pid student_gitlab_id], acc.2 + 1))
      (es, n)
    = (es ++ ids.map (Event.addMember pid), n + ids.length) := by
  induction ids generalizing es n with
  | nil => simp
  | cons uid ids ih =>
    simp only [List.foldl_cons, List.map_cons, List.length_cons]
    rw [ih]
    simp [List.append_assoc]
    omega

theorem add_users_spec (o : Oracle) (ids : List Nat) (pid : Nat) :
    add_users_to_project o ids pid
      = (ids.map (Event.addMember pid), ids.length) := by
  unfold add_users_to_project
  simpa using add_users_go o pid ids [] 0

theorem retrieve_user_id_ok (l : List Nat) :
    retrieve_user_id (Except.ok l) = Except.ok l.head? := by
  cases l <;> rfl

theorem convert_go (o : Oracle) (entry : List String) (ids : List Nat)
    (h : ∀ s ∈ entry, (o.lookupResp s).isOk = true) :
    entry.foldl
      (fun acc student =>
        match acc with
        | .error e => .error e
        | .ok id_vector =>
          match retrieve_user_id (o.lookupResp student) with
          | .error e => .error e
          | .ok none => .ok id_vector
          | .ok (some id) => .ok (id_vector ++ [id]))
      (Except.ok ids)
    = Except.ok (ids ++ entry.filterMap (fun s =>
        match o.lookupResp s with
        | .ok l => l.head?
        | .error _ => none)) := by
  induction entry generalizing ids with
  | nil => simp
  | cons s rest ih =>
    have hs : (o.lookupResp s).isOk = true := h s (by simp)
    cases hl : o.lookupResp s with
    | error e => rw [hl] at hs; cases hs
    | ok l =>
      have hrest : ∀ x ∈ rest, (o.lookupResp x).isOk = true :=
        fun x hx => h x (by simp [hx])
      simp only [List.foldl_cons, List.filterMap_cons, hl, retrieve_user_id_ok]
      cases l with
      | nil => simpa using ih ids hrest
      | cons x xs =>
        simp only [List.head?_cons]
        rw [ih (ids ++ [x]) hrest]
        simp

theorem process_entry_shape (o : Oracle) (config : GitLabConfig) (i : Nat)
    (entry : List String) (tr : List Event)
    (h : process_entry o config i entry = .ok tr) :
    tr = [] ∨
    tr = [Event.createProject (project_name config i entry)] ∨
    ∃ pid ids, pid ≠ 0 ∧ ids ≠ [] ∧
      tr = Event.createProject (project_name config i entry) :: Event.delay ::
        Event.unprotect pid DEFAULT_BRANCH_NAME :: Event.protect pid DEFAULT_BRANCH_NAME ::
        ids.map (Event.addMember pid) := by
  simp only [process_entry] at h
  split at h
  · exact Except.noConfusion h
  · rename_i ids heq
    split at h
    · injection h with h'
      exact Or.inl h'.symm
    · rename_i hemp
      split at h
      · injection h with h'
        exact Or.inr (Or.inl h'.symm)
      · rename_i hz
        injection h with h'
        refine Or.inr (Or.inr
          ⟨create_project (o.createResp (project_name config i entry)), ids, hz, ?_, ?_⟩)
        · intro hnil
          rw [hnil] at hemp
          exact hemp rfl
        · rw [← h']
          simp [configure_branch_protection, add_users_spec]

theorem filter_none_of_all {α : Type} (p : α → Bool) (l : List α)
    (h : ∀ c ∈ l, p c = false) : l.filter p = [] := by
  induction l with
  | nil => rfl
  | cons a l ih =>
    rw [List.filter_cons, h a (by simp)]
    exact ih (fun c hc => h c (by simp [hc]))

theorem filter_all_of_all {α : Type} (p : α → Bool) (l : List α)
    (h : ∀ c ∈ l, p c = true) : l.filter p = l := by
  induction l with
  | nil => rfl
  | cons a l ih =>
    rw [List.filter_cons, h a (by simp)]
    simp only [if_true]
    rw [ih (fun c hc => h c (by simp [hc]))]

theorem create_repos_go_at (o : Oracle) (config : GitLabConfig) (entry : List String)
    (post : List (List String)) :
    ∀ (pre : List (List String)) (i : Nat) (trs : List (List Event)),
      create_repos_go o config i (pre ++ entry :: post) = .ok trs →
      ∃ tr, process_entry o config (i + pre.length) entry = .ok tr ∧
        trs.get? pre.length = some tr := by
  intro pre
  induction pre with
  | nil =>
    intro i trs h
    rw [List.nil_append] at h
    simp only [create_repos_go] at h
    split at h
    · exact Except.noConfusion h
    · rename_i tr hp
      split at h
      · exact Except.noConfusion h
      · rename_i trs' hg
        injection h with h'
        exact ⟨tr, hp, by rw [← h']; rfl⟩
  | cons q pre ih =>
    intro i trs h
    rw [List.cons_append] at h
    simp only [create_repos_go] at h
    split at h
    · exact Except.noConfusion h
    · rename_i trq hp
      split at h
      · exact Except.noConfusion h
      · rename_i trs' hg
        injection h with h'
        obtain ⟨tr, htr, hget⟩ := ih (i + 1) trs' hg
        refine ⟨tr, ?_, ?_⟩
        · have heq : i + (q :: pre).length = i + 1 + pre.length := by
            simp [List.length_cons]
            omega
          rw [heq]
          exact htr
        · rw [← h', List.length_cons, List.get?_cons_succ]
          exact hget

/-! ### Claim theorems -/

/-- Claim C1: the derived project name for the roster entry at 0-based row
position `i` is `{namespace}-{designation}-{identity}` when the entry has
exactly one identity and `{namespace}-{designation}-g{i+1}` when it has more
than one; and the orchestrator processes the entry at roster position
`pre.length` with exactly that ordinal position, counting every prior row
(skipped or empty rows included). -/
theorem project_name_single_and_group (config : GitLabConfig) (i : Nat)
    (entry : List String) :
    (∀ s, entry = [s] →
      project_name config i entry =
        config.group_name ++ "-" ++ config.designation ++ "-" ++ s) ∧
    (1 < entry.length →
      project_name config i entry =
        config.group_name ++ "-" ++ config.designation ++ "-g" ++ toString (i + 1)) ∧
    (∀ (o : Oracle) (pre post : List (List String)) (trs : List (List Event)),
      create_repos o config (pre ++ entry :: post) = .ok trs →
      ∃ tr, process_entry o config pre.length entry = .ok tr ∧
        trs.get? pre.length = some tr) := by
  refine ⟨?_, ?_, ?_⟩
  · intro s hs
    subst hs
    rfl
  · intro hlen
    have hne : entry.length ≠ 1 := by omega
    simp [project_name, hne]
  · intro o pre post trs h
    simpa using create_repos_go_at o config entry post pre 0 trs h

/-- Witness for C1: concrete single-identity and group entries, and the group
entry at roster position 1 of a two-entry roster. -/
theorem project_name_single_and_group_witness :
    project_name cfgEx 0 ["alice"] =
      cfgEx.group_name ++ "-" ++ cfgEx.designation ++ "-" ++ "alice" ∧
    project_name cfgEx 1 ["bob", "carol"] =
      cfgEx.group_name ++ "-" ++ cfgEx.designation ++ "-g" ++ toString (1 + 1) ∧
    ∃ tr, process_entry oracleOk cfgEx 1 ["bob", "carol"] = .ok tr ∧
      trsEx.get? 1 = some tr :=
  ⟨(project_name_single_and_group cfgEx 0 ["alice"]).1 "alice" rfl,
   (project_name_single_and_group cfgEx 1 ["bob", "carol"]).2.1 (by decide),
   by
    simpa using (project_name_single_and_group cfgEx 1 ["bob", "carol"]).2.2
      oracleOk [["alice"]] [] trsEx rfl⟩

/-- Claim C2: a roster entry whose resolved identifier set is empty produces
no project-creation, branch-protection or membership-add call (its trace is
empty) and the orchestrator continues with the remaining entries. -/
theorem empty_resolution_skips_entry (o : Oracle) (config : GitLabConfig) (i : Nat)
    (entry : List String) (rest : List (List String))
    (h : convert_to_user_ids o entry = .ok []) :
    process_entry o config i entry = .ok [] ∧
    create_repos_go o config i (entry :: rest) =
      Except.map (List.cons []) (create_repos_go o config (i + 1) rest) := by
  have hpe : process_entry o config i entry = .ok [] := by
    simp [process_entry, h]
  refine ⟨hpe, ?_⟩
  simp only [create_repos_go, hpe]
  cases hg : create_repos_go o config (i + 1) rest with
  | error e => rfl
  | ok trs => rfl

/-- Witness for C2: the entry `["ghost"]` resolves to no users under
`oracleNoUsers`, is skipped without calls, and the batch continues. -/
theorem empty_resolution_skips_entry_witness :
    process_entry oracleNoUsers cfgEx 0 ["ghost"] = .ok [] ∧
    create_repos_go oracleNoUsers cfgEx 0 (["ghost"] :: [["x"]]) =
      Except.map (List.cons []) (create_repos_go oracleNoUsers cfgEx (0 + 1) [["x"]]) :=
  empty_resolution_skips_entry oracleNoUsers cfgEx 0 ["ghost"] [["x"]] rfl

/-- Claim C3: when the platform rejects the creation request for an entry, the
provisioner returns the sentinel 0, the entry's trace holds only the failed
creation call (no branch-protection or membership-add call), and the
orchestrator continues with the remaining entries. -/
theorem create_failure_confined_to_entry (o : Oracle) (config : GitLabConfig)
    (i : Nat) (entry : List String) (rest : List (List String)) (ids : List Nat)
    (hids : convert_to_user_ids o entry = .ok ids) (hne : ids ≠ [])
    (hrej : o.createResp (project_name config i entry) = .error ()) :
    create_project (o.createResp (project_name config i entry)) = 0 ∧
    process_entry o config i entry =
      .ok [Event.createProject (project_name config i entry)] ∧
    create_repos_go o config i (entry :: rest) =
      Except.map (List.cons [Event.createProject (project_name config i entry)])
        (create_repos_go o config (i + 1) rest) := by
  have hcp : create_project (o.createResp (project_name config i entry)) = 0 := by
    rw [hrej]
    rfl
  have hemp : ids.isEmpty = false := by
    cases ids with
    | nil => exact absurd rfl hne
    | cons a l => rfl
  have hpe : process_entry o config i entry =
      .ok [Event.createProject (project_name config i entry)] := by
    simp only [process_entry, hids]
    rw [hemp]
    simp only [Bool.false_eq_true, if_false]
    rw [if_pos hcp]
  refine ⟨hcp, hpe, ?_⟩
  simp only [create_repos_go, hpe]
  cases hg : create_repos_go o config (i + 1) rest with
  | error e => rfl
  | ok trs => rfl

/-- Witness for C3: `oracleCreateFail` rejects the creation of
`ece459-1231-a1-bob`; the entry fails alone and the batch continues. -/
theorem create_failure_confined_to_entry_witness :
    create_project (oracleCreateFail.createResp (project_name cfgEx 0 ["bob"])) = 0 ∧
    process_entry oracleCreateFail cfgEx 0 ["bob"] =
      .ok [Event.createProject (project_name cfgEx 0 ["bob"])] ∧
    create_repos_go oracleCreateFail cfgEx 0 (["bob"] :: [["x"]]) =
      Except.map (List.cons [Event.createProject (project_name cfgEx 0 ["bob"])])
        (create_repos_go oracleCreateFail cfgEx (0 + 1) [["x"]]) :=
  create_failure_confined_to_entry oracleCreateFail cfgEx 0 ["bob"] [["x"]] [5] rfl
    (by simp) rfl

/-- Claim C4: in the trace of any roster entry, whenever a protect request on
the default branch of a project appears, exactly one unprotect request on that
branch of that project appears, immediately before it, and no other protect
or unprotect request for that project occurs: a protect call is never issued
without a preceding unprotect call. -/
theorem unprotect_precedes_protect (o : Oracle) (config : GitLabConfig) (i : Nat)
    (entry : List String) (tr : List Event) (pid : Nat)
    (h : process_entry o config i entry = .ok tr)
    (hp : Event.protect pid DEFAULT_BRANCH_NAME ∈ tr) :
    ∃ s t, tr = s ++ Event.unprotect pid DEFAULT_BRANCH_NAME ::
        Event.protect pid DEFAULT_BRANCH_NAME :: t ∧
      Event.unprotect pid DEFAULT_BRANCH_NAME ∉ s ∧
      Event.unprotect pid DEFAULT_BRANCH_NAME ∉ t ∧
      Event.protect pid DEFAULT_BRANCH_NAME ∉ s ∧
      Event.protect pid DEFAULT_BRANCH_NAME ∉ t := by
  rcases process_entry_shape o config i entry tr h with h0 | h1 | ⟨pid', ids, hz, hne, h3⟩
  · subst h0
    cases hp
  · subst h1
    simp at hp
  · subst h3
    have hpid : pid = pid' := by
      simp [List.mem_cons, List.mem_map] at hp
      exact hp
    subst hpid
    refine ⟨[Event.createProject (project_name config i entry), Event.delay],
      ids.map (Event.addMember pid), rfl, by simp, ?_, by simp, ?_⟩
    · simp [List.mem_map]
    · simp [List.mem_map]

/-- Witness for C4 on the concrete successful trace `trEx`. -/
theorem unprotect_precedes_protect_witness :
    ∃ s t, trEx = s ++ Event.unprotect 42 DEFAULT_BRANCH_NAME ::
        Event.protect 42 DEFAULT_BRANCH_NAME :: t ∧
      Event.unprotect 42 DEFAULT_BRANCH_NAME ∉ s ∧
      Event.unprotect 42 DEFAULT_BRANCH_NAME ∉ t ∧
      Event.protect 42 DEFAULT_BRANCH_NAME ∉ s ∧
      Event.protect 42 DEFAULT_BRANCH_NAME ∉ t :=
  unprotect_precedes_protect oracleOk cfgEx 1 ["bob", "carol"] trEx 42 rfl (by decide)

/-- Claim C5: for an entry whose project was successfully created, the trace
begins with the creation call followed by the settling delay, and every
branch-protection call comes strictly after the delay; the remainder of the
trace holds no further delay and only membership-add calls, so policy
application never precedes the delay. -/
theorem delay_between_create_and_protection (o : Oracle) (config : GitLabConfig)
    (i : Nat) (entry : List String) (tr : List Event) (pid : Nat) (br : String)
    (h : process_entry o config i entry = .ok tr)
    (hp : Event.unprotect pid br ∈ tr ∨ Event.protect pid br ∈ tr) :
    ∃ t, tr = Event.createProject (project_name config i entry) :: Event.delay ::
        Event.unprotect pid br :: Event.protect pid br :: t ∧
      Event.delay ∉ t ∧
      ∀ e ∈ t, ∃ uid, e = Event.addMember pid uid := by
  rcases process_entry_shape o config i entry tr h with h0 | h1 | ⟨pid', ids, hz, hne, h3⟩
  · subst h0
    rcases hp with hp | hp <;> cases hp
  · subst h1
    rcases hp with hp | hp <;> simp at hp
  · subst h3
    have hpid : pid = pid' ∧ br = DEFAULT_BRANCH_NAME := by
      rcases hp with hp | hp <;>
        · simp [List.mem_cons, List.mem_map] at hp
          exact hp
    rw [hpid.1, hpid.2]
    refine ⟨ids.map (Event.addMember pid'), rfl, by simp, ?_⟩
    intro e he
    simp only [List.mem_map] at he
    obtain ⟨uid, _, huid⟩ := he
    exact ⟨uid, huid.symm⟩

/-- Witness for C5 on the concrete successful trace `trEx`. -/
theorem delay_between_create_and_protection_witness :
    ∃ t, trEx = Event.createProject (project_name cfgEx 1 ["bob", "carol"]) ::
        Event.delay :: Event.unprotect 42 "main" :: Event.protect 42 "main" :: t ∧
      Event.delay ∉ t ∧
      ∀ e ∈ t, ∃ uid, e = Event.addMember 42 uid :=
  delay_between_create_and_protection oracleOk cfgEx 1 ["bob", "carol"] trEx 42 "main"
    rfl (Or.inl (by decide))

/-- Claim C6 (counterexample): a row consisting of one whitespace-only field
refutes the claimed trim-then-drop order.  The code tests emptiness before
trimming, so the row ` ` parses to the entry `[""]`, while trimming each field
and then dropping empty fields would give the empty entry. -/
theorem parse_trim_order_counterexample :
    parse_csv_file [" "] = [[""]] ∧
    parse_line_claimed " " = [] ∧
    parse_csv_file [" "] ≠ [parse_line_claimed " "] := by decide

/-- Claim C6 (amended): every input row yields exactly one entry at its row
position; within a row, fields are split on the delimiter, fields empty
before any trimming are dropped, and the remaining fields are trimmed (a
whitespace-only field is therefore kept as an empty string); a row whose
every field is empty yields an empty entry at its position rather than being
omitted. -/
theorem parse_csv_rows_positionwise (lines : List String) :
    parse_csv_file lines = lines.map parse_line_amended ∧
    (parse_csv_file lines).length = lines.length := by
  have h : parse_csv_file lines = lines.map parse_line_amended := by
    unfold parse_csv_file
    rw [parse_lines_go, show parse_line = parse_line_amended from
      funext parse_line_eq_amended]
    simp
  exact ⟨h, by rw [h]; simp⟩

/-- Claim C7 (counterexample): with a platform that rejects every add-member
request, the code still reports 1 added member for a one-member set, while
the number of requests that succeeded is 0. -/
theorem member_count_counts_failures :
    (add_users_to_project oracleAddFail [7] 42).2 = 1 ∧
    successful_add_count oracleAddFail [7] 42 = 0 ∧
    (add_users_to_project oracleAddFail [7] 42).2 ≠
      successful_add_count oracleAddFail [7] 42 := by decide

/-- Claim C7 (amended): the Membership Grantor reports a count equal to the
number of add-member requests issued — one per resolved identifier —
regardless of whether each request succeeded, because every request's result
is discarded before the counter is incremented. -/
theorem member_count_equals_attempts (o : Oracle) (ids : List Nat) (pid : Nat) :
    (add_users_to_project o ids pid).2 = ids.length := by
  rw [add_users_spec]

/-- Claim C8 (counterexample): an error-level platform response to the
user-directory lookup is unwrapped by the code and aborts the run (modelled
as `Except.error`), both in the lookup itself, in the per-entry resolution
loop, and in the entry's processing — refuting the claim that resolution
never aborts the run for every platform response. -/
theorem lookup_error_aborts_run :
    retrieve_user_id (oracleLookupError.lookupResp "alice") = Except.error () ∧
    convert_to_user_ids oracleLookupError ["alice"] = Except.error () ∧
    process_entry oracleLookupError cfgEx 0 ["alice"] = Except.error () :=
  ⟨rfl, rfl, rfl⟩

/-- Claim C8 (amended): whenever every user-directory lookup of an entry
returns a successful response, resolution does not abort the run: each
identity with a no-match (empty) result is excluded from the entry's
identifier set, and each identity with a match contributes the first matching
user's identifier. -/
theorem resolution_on_ok_responses (o : Oracle) (entry : List String)
    (h : ∀ s ∈ entry, (o.lookupResp s).isOk = true) :
    convert_to_user_ids o entry =
      .ok (entry.filterMap fun s =>
        match o.lookupResp s with
        | .ok l => l.head?
        | .error _ => none) := by
  unfold convert_to_user_ids
  exact convert_go o entry [] h

/-- Witness for C8 on an oracle where `alice` matches users 3 and 9 and
`ghost` matches nobody: the entry resolves to `[3]`. -/
theorem resolution_on_ok_responses_witness :
    convert_to_user_ids oracleMixed ["alice", "ghost"] =
      .ok ((["alice", "ghost"] : List String).filterMap fun s =>
        match oracleMixed.lookupResp s with
        | .ok l => l.head?
        | .error _ => none) :=
  resolution_on_ok_responses oracleMixed ["alice", "ghost"] (by decide)

/-- Claim C9 (counterexample): a token file whose content has interior
whitespace refutes the claim that only surrounding whitespace is stripped:
the code removes the interior space of `ab cd` as well. -/
theorem token_interior_whitespace_counterexample :
    read_token_file "ab cd" = "abcd" ∧
    trimSurrounding "ab cd" = "ab cd" ∧
    read_token_file "ab cd" ≠ trimSurrounding "ab cd" := by decide

/-- Claim C9 (amended): the bearer token equals the file content with every
whitespace character removed, wherever it occurs; in particular, when the
content is a whitespace-free token surrounded by whitespace, this coincides
with stripping the surrounding whitespace, yielding the token. -/
theorem token_strip_all_whitespace (pre core post : List Char)
    (hpre : ∀ c ∈ pre, isRustWhitespace c = true)
    (hpost : ∀ c ∈ post, isRustWhitespace c = true)
    (hcore : ∀ c ∈ core, isRustWhitespace c = false) :
    read_token_file (String.mk (pre ++ core ++ post)) = String.mk core ∧
    trimSurrounding (String.mk (pre ++ core ++ post)) = String.mk core := by
  constructor
  · have hfilter : (pre ++ core ++ post).filter (fun c => !isRustWhitespace c) = core := by
      rw [List.filter_append, List.filter_append]
      rw [filter_none_of_all _ pre (fun c hc => by simp [hpre c hc]),
        filter_none_of_all _ post (fun c hc => by simp [hpost c hc]),
        filter_all_of_all _ core (fun c hc => by simp [hcore c hc])]
      simp
    unfold read_token_file
    rw [show (String.mk (pre ++ core ++ post)).data = pre ++ core ++ post from rfl,
      hfilter]
  · unfold trimSurrounding
    rw [show (String.mk (pre ++ core ++ post)).data = pre ++ core ++ post from rfl,
      trimChars_sandwich pre core post hpre hpost hcore]

/-- Witness for C9: the content `" ab\n"` yields the token `ab`. -/
theorem token_strip_all_whitespace_witness :
    read_token_file (String.mk ([' '] ++ ['a', 'b'] ++ ['\n'])) = String.mk ['a', 'b'] ∧
    trimSurrounding (String.mk ([' '] ++ ['a', 'b'] ++ ['\n'])) = String.mk ['a', 'b'] :=
  token_strip_all_whitespace [' '] ['a', 'b'] ['\n'] (by decide) (by decide) (by decide)

/-- Claim C10: for a roster entry with zero identities, the name in the skip
log message is the multi-identity group form
`{namespace}-{designation}-g{i+1}`, because the single-identity branch
applies only to entries of length exactly 1. -/
theorem empty_entry_skip_message_group_form (config : GitLabConfig) (i : Nat)
    (entry : List String) (h : entry.length = 0) :
    skip_message config i entry =
      "Unable to create project " ++ (config.group_name ++ "-" ++ config.designation ++
        "-g" ++ toString (i + 1)) ++ "; no gitlab users found" := by
  have hnil : entry = [] := List.length_eq_zero.mp h
  subst hnil
  rfl

/-- Witness for C10: the empty entry at roster position 2. -/
theorem empty_entry_skip_message_group_form_witness :
    skip_message cfgEx 2 [] =
      "Unable to create project " ++ (cfgEx.group_name ++ "-" ++ cfgEx.designation ++
        "-g" ++ toString (2 + 1)) ++ "; no gitlab users found" :=
  empty_entry_skip_message_group_form cfgEx 2 [] rfl

end CreateProjectRepos
